import Mathlib

/-!
Shallow embedding of the SMS service loader (`smsvip_loader.py`) of the
repository: the registry of dynamically loaded service functions, random
selection, the concurrent batch dispatcher built on a thread pool with
`as_completed(..., timeout=REQUEST_TIMEOUT)`, the single-service dispatch by
name fragment, and the lazily created global loader instance.

Modelling choices, each mirroring the Python source:
* A Python runtime value is `PyVal`; Python truthiness (`if result`) is
  `PyVal.truthy`.
* A loaded service function is `PyFunc`: its signature's parameter names
  (inspected via `inspect.signature`) plus its behaviour, an
  `Except String PyVal` for each of the three calling conventions used by
  `_call_service` (keyword `phone`, keyword `sdt`, positional).  `.error msg`
  models the call raising an exception whose `str` is `msg`.
* The registry `self.services` is an insertion-ordered association list, as a
  Python dict is; `dictInsert` models `d[k] = v` (overwrite keeps the
  original position, a fresh key appends).
* `random.sample(pop, k)` is modelled by `randomSample`: the RNG is abstracted
  into a `seed : List Nat` of index draws (taken modulo the remaining
  population size), which realises an arbitrary draw without replacement;
  `random.sample` raises `ValueError` unless `0 ≤ k ≤ len(pop)`.
* Thread-pool timing is abstracted into `sched : Nat → Nat`, the completion
  time of the i-th submitted future, and a `timeout : Nat` deadline.
  `as_completed` yields the futures whose completion time is within the
  deadline, ordered by completion time; if any future completes after the
  deadline, the iterator's next step raises `TimeoutError` — at the `for`
  statement of `send_sms_batch`, outside the per-future `try/except`.
-/

/-- A Python runtime value, as far as the loader observes it (truthiness and
identity of the returned payload). -/
inductive PyVal where
  | none
  | bool (b : Bool)
  | int (n : Int)
  | str (s : String)
  | list (xs : List PyVal)

/-- Python truthiness: `bool(v)`. -/
def PyVal.truthy : PyVal → Bool
  | .none => false
  | .bool b => b
  | .int n => n != 0
  | .str s => s != ""
  | .list xs => !xs.isEmpty

/-- Which calling convention `_call_service` uses for a given function. -/
inductive CallMode where
  | kwPhone
  | kwSdt
  | positional

/-- A service function as discovered by the loader: its parameter-name list
(from `inspect.signature`) and its behaviour under each calling convention.
`.error msg` models the call raising an exception with `str(e) = msg`. -/
structure PyFunc where
  params : List String
  impl : CallMode → String → Except String PyVal

/-- The registry: `self.services` as an insertion-ordered list of
`(service_key, function)` pairs, exactly `list(self.services.items())`. -/
abbrev Registry := List (String × PyFunc)

/-- One result dict produced by `_call_service` (or the not-found dict of
`send_sms_single`, which carries no `"service"` key). -/
structure CallResult where
  service : Option String
  status : String
  result : Option PyVal
  error : Option String

/-- The selection of the calling convention inside `_call_service`:
`'phone' in sig.parameters`, `elif 'sdt' in sig.parameters`, else positional. -/
def callRaw (f : PyFunc) (phone : String) : Except String PyVal :=
  if f.params.contains "phone" then f.impl CallMode.kwPhone phone
  else if f.params.contains "sdt" then f.impl CallMode.kwSdt phone
  else f.impl CallMode.positional phone

/-- Whether the underlying call raises (is caught by `_call_service`). -/
def raisesOn (f : PyFunc) (phone : String) : Bool :=
  match callRaw f phone with
  | .error _ => true
  | .ok _ => false

/-- `SMSServiceLoader._call_service`: call the function, convert a truthy
return value to a success payload, a falsy one to the sentinel `"SMS sent"`,
and any exception to an error-status dict. -/
def call_service (service_name : String) (f : PyFunc) (phone : String) :
    CallResult :=
  match callRaw f phone with
  | .ok v =>
      { service := some service_name
        status := "success"
        result := some (if v.truthy then v else PyVal.str "SMS sent")
        error := Option.none }
  | .error e =>
      { service := some service_name
        status := "error"
        result := Option.none
        error := some e }

/-- One step of drawing without replacement: pick the seed's next index modulo
the remaining population, remove the picked element, recurse.  Any sequence of
draws without replacement is `sampleAux pop k seed` for some `seed`. -/
def sampleAux : List α → Nat → List Nat → List α
  | _, 0, _ => []
  | pop, k + 1, seed =>
      if h : 0 < pop.length then
        pop.get ⟨seed.headD 0 % pop.length, Nat.mod_lt _ h⟩ ::
          sampleAux (pop.eraseIdx (seed.headD 0 % pop.length)) k seed.tail
      else []

/-- `random.sample(pop, k)`: `ValueError` unless `0 ≤ k ≤ len(pop)`, otherwise
`k` draws without replacement. -/
def randomSample (pop : List α) (k : Int) (seed : List Nat) :
    Except String (List α) :=
  if k < 0 ∨ (pop.length : Int) < k then
    Except.error "Sample larger than population or is negative"
  else
    Except.ok (sampleAux pop k.toNat seed)

/-- `SMSServiceLoader.get_random_services`: clamp `amount` down to the registry
size, then `random.sample(list(self.services.items()), amount)`. -/
def get_random_services (services : Registry) (amount : Int)
    (seed : List Nat) : Except String Registry :=
  randomSample services (if (services.length : Int) < amount
    then (services.length : Int) else amount) seed

/-- A future submitted to the executor: the service key, the function, and the
completion time the schedule assigns to this invocation. -/
structure SubmittedTask where
  service_name : String
  func : PyFunc
  time : Nat

/-- The submission loop of `send_sms_batch`: the i-th selected service becomes
a future whose completion time is `sched i`. -/
def submit (sched : Nat → Nat) : Nat → Registry → List SubmittedTask
  | _, [] => []
  | i, p :: rest => ⟨p.1, p.2, sched i⟩ :: submit sched (i + 1) rest

/-- The mutable state of the collection loop of `send_sms_batch`: the
`results["results"]` list and the `success_count` / `error_count` counters. -/
structure CollectState where
  results : List CallResult
  success_count : Nat
  error_count : Nat

/-- One iteration of the collection loop: `result = future.result()` (which
never raises here, because `_call_service` catches every exception of the
service function), append it, and bump the matching counter.  The
`except` branch of the loop body is unreachable: `as_completed`'s
`TimeoutError` is raised at the `for` statement itself, outside the `try`. -/
def collectStep (phone : String) (st : CollectState) (t : SubmittedTask) :
    CollectState :=
  if (call_service t.service_name t.func phone).status = "success" then
    { results := st.results ++ [call_service t.service_name t.func phone]
      success_count := st.success_count + 1
      error_count := st.error_count }
  else
    { results := st.results ++ [call_service t.service_name t.func phone]
      success_count := st.success_count
      error_count := st.error_count + 1 }

/-- The order in which `as_completed` yields already-completed futures:
completion-time order. -/
def completionOrder (tasks : List SubmittedTask) : List SubmittedTask :=
  List.insertionSort (fun a b : SubmittedTask => a.time ≤ b.time) tasks

/-- The `future.result()` value of a submitted task. -/
def callOf (phone : String) (t : SubmittedTask) : CallResult :=
  call_service t.service_name t.func phone

/-- The branch test of the collection loop, as a Bool. -/
def isSuccess (r : CallResult) : Bool :=
  decide (r.status = "success")

/-- The collection loop over the futures `as_completed` yields: the futures
that complete within the deadline, in completion-time order. -/
def runCollect (phone : String) (timeout : Nat)
    (tasks : List SubmittedTask) : CollectState :=
  (completionOrder (tasks.filter (fun t => t.time ≤ timeout))).foldl
    (collectStep phone) ⟨[], 0, 0⟩

/-- `SMSServiceLoader.send_sms_batch`'s result dict. -/
structure BatchResult where
  phone : String
  requested : Int
  total_services : Nat
  results : List CallResult
  success_count : Nat
  error_count : Nat

/-- `SMSServiceLoader.send_sms_batch`: select random services, submit each to
the executor, collect completions under `as_completed(futures, timeout)`.  If
any submitted future is still unfinished when the deadline elapses,
`as_completed` raises `TimeoutError` at the `for` statement — outside the
per-future `try/except` — so the whole call raises (`Except.error`) and the
partially collected results are discarded. -/
def send_sms_batch (services : Registry) (phone : String) (amount : Int)
    (seed : List Nat) (sched : Nat → Nat) (timeout : Nat) :
    Except String BatchResult :=
  match get_random_services services amount seed with
  | Except.error e => Except.error e
  | Except.ok selected =>
      let tasks := submit sched 0 selected
      let st := runCollect phone timeout tasks
      if tasks.any (fun t => timeout < t.time) then
        Except.error "concurrent.futures.TimeoutError"
      else
        Except.ok
          { phone := phone
            requested := amount
            total_services := selected.length
            results := st.results
            success_count := st.success_count
            error_count := st.error_count }

/-- Whether `needle` is a prefix of `hay` (`str.startswith`-style check used
to build the substring test below). -/
def charsHavePre : List Char → List Char → Bool
  | [], _ => true
  | _ :: _, [] => false
  | a :: as, b :: bs => a = b && charsHavePre as bs

/-- Python's `needle in hay` on strings: `needle` occurs as a contiguous
substring of `hay` (the empty needle always occurs). -/
def charsHaveSub (needle hay : List Char) : Bool :=
  match hay with
  | [] => charsHavePre needle []
  | _ :: rest => charsHavePre needle hay || charsHaveSub needle rest

/-- `str.lower` on a single character. -/
def lowerChar (c : Char) : Char :=
  if c.isUpper then c.toLower else c

/-- The match predicate of `send_sms_single`:
`service_name.lower() in k.lower()` (lower-casing modelled per character). -/
def keyMatches (k service_name : String) : Bool :=
  charsHaveSub (service_name.data.map lowerChar) (k.data.map lowerChar)

/-- The dict `send_sms_single` returns when no key matches; it has no
`"service"` and no `"result"` entry. -/
def notFoundResult (service_name : String) : CallResult :=
  { service := Option.none
    status := "error"
    result := Option.none
    error := some ("Service \x27" ++ service_name ++ "\x27 not found") }

/-- `SMSServiceLoader.send_sms_single`: filter the registry items by
case-insensitive substring match of `service_name` against the key, return the
not-found error dict when nothing matches, otherwise `_call_service` on the
first match in registry (insertion) order. -/
def send_sms_single (services : Registry) (phone service_name : String) :
    CallResult :=
  match services.filter (fun p => keyMatches p.1 service_name) with
  | [] => notFoundResult service_name
  | p :: _ => call_service p.1 p.2 phone

/-- The loader's registry state: `self.services` (insertion-ordered dict) and
`self.service_names` (appended-to list of bare function names). -/
structure LoaderState where
  services : Registry
  service_names : List String

/-- Python dict assignment `d[k] = v`: overwrite in place if the key exists
(keeping its original position), otherwise append. -/
def dictInsert (m : Registry) (k : String) (v : PyFunc) : Registry :=
  if m.any (fun p => p.1 = k) then
    m.map (fun p => if p.1 = k then (k, v) else p)
  else m ++ [(k, v)]

/-- A declared source: its file name (from `config.SERVICE_FILES`) and the
outcome of importing and enumerating it — `.error` when
`importlib.import_module` or the enumeration raises, `.ok` with the list of
public module functions (name, function) otherwise. -/
abbrev Source := String × Except String (List (String × PyFunc))

/-- The per-source body of `load_all_services`: on an import/enumeration
failure, the `except` logs and `continue`s, leaving the state unchanged;
otherwise every non-underscore function whose signature has a `phone` or
`sdt` parameter is registered under the key `f"{service_file}_{func_name}"`. -/
def loadSource (st : LoaderState) (src : Source) : LoaderState :=
  match src.2 with
  | Except.error _ => st
  | Except.ok funcs =>
      funcs.foldl (fun st2 fp =>
        if fp.1.startsWith "_" then st2
        else if fp.2.params.contains "phone" || fp.2.params.contains "sdt" then
          { services := dictInsert st2.services (src.1 ++ "_" ++ fp.1) fp.2
            service_names := st2.service_names ++ [fp.1] }
        else st2) st

/-- `SMSServiceLoader.load_all_services` over the declared sources, starting
from the freshly constructed empty loader. -/
def load_all_services (sources : List Source) : LoaderState :=
  sources.foldl loadSource ⟨[], []⟩

/-- `get_loader` with the module-global `_loader` made explicit: the input is
the current value of `_loader`, the output is the returned loader together
with the new value of `_loader`. -/
def get_loader (g : Option LoaderState) (sources : List Source) :
    LoaderState × Option LoaderState :=
  match g with
  | Option.none =>
      let l := load_all_services sources
      (l, some l)
  | some l => (l, some l)

/-- The invariant claimed of every result dict: exactly one of the
`result` / `error` entries is present, matching the status. -/
def exactlyOnePayload (r : CallResult) : Prop :=
  (r.status = "success" ∧ r.result.isSome = true ∧ r.error = Option.none) ∨
  (r.status = "error" ∧ r.result = Option.none ∧ r.error.isSome = true)

/-- A concrete service function that succeeds, returning a truthy string. -/
def okFunc : PyFunc :=
  { params := ["phone"], impl := fun _ _ => Except.ok (PyVal.str "ok") }

/-- A concrete service function that raises. -/
def badFunc : PyFunc :=
  { params := ["phone"], impl := fun _ _ => Except.error "boom" }

/-- A concrete service function returning a falsy value (`None`). -/
def falsyFunc : PyFunc :=
  { params := ["sdt"], impl := fun _ _ => Except.ok PyVal.none }

/-- A concrete slow service function: succeeds, but its completion time in the
timeout scenario is set past the deadline by the schedule. -/
def slowFunc : PyFunc :=
  { params := ["phone"], impl := fun _ _ => Except.ok (PyVal.str "late") }

/-- A three-entry registry of distinct keys. -/
def reg3 : Registry :=
  [("smsvip_0_alpha", okFunc), ("smsvip_1_beta", okFunc),
   ("smsvip_2_gamma", okFunc)]

/-- A ten-entry registry for the timeout scenario (9 fast + 1 slow). -/
def reg10 : Registry :=
  [("smsvip_0_f0", okFunc), ("smsvip_0_f1", okFunc), ("smsvip_0_f2", okFunc),
   ("smsvip_1_f3", okFunc), ("smsvip_1_f4", okFunc), ("smsvip_1_f5", okFunc),
   ("smsvip_2_f6", okFunc), ("smsvip_2_f7", okFunc), ("smsvip_2_f8", okFunc),
   ("smsvip_3_slow", slowFunc)]

/-- The schedule of the timeout scenario: the first nine submitted futures
complete at time 0, the tenth at time 100, past the deadline of 10. -/
def sched9fast (i : Nat) : Nat :=
  if i = 9 then 100 else 0

/-- A two-entry registry in which exactly one service raises. -/
def reg2mixed : Registry :=
  [("smsvip_0_good", okFunc), ("smsvip_1_bad", badFunc)]

/-! ## Helper lemmas about sampling -/

theorem sampleAux_length {α : Type _} :
    ∀ (k : Nat) (pop : List α) (seed : List Nat), k ≤ pop.length →
      (sampleAux pop k seed).length = k := by
  intro k
  induction k with
  | zero => intro pop seed _; rfl
  | succ k ih =>
      intro pop seed h
      have hpos : 0 < pop.length := Nat.lt_of_lt_of_le (Nat.succ_pos k) h
      rw [sampleAux, dif_pos hpos]
      simp only [List.length_cons]
      rw [ih]
      have := List.length_eraseIdx_add_one
        (l := pop) (i := seed.headD 0 % pop.length) (Nat.mod_lt _ hpos)
      omega

theorem get_cons_eraseIdx_perm {α : Type _} :
    ∀ (l : List α) (i : Nat) (h : i < l.length),
      List.Perm (l.get ⟨i, h⟩ :: l.eraseIdx i) l := by
  intro l
  induction l with
  | nil => intro i h; exact absurd h (by simp)
  | cons a l ih =>
      intro i h
      cases i with
      | zero => simp [List.eraseIdx]
      | succ i =>
          have h' : i < l.length := by simpa using h
          have heq : (a :: l).eraseIdx (i + 1) = a :: l.eraseIdx i := rfl
          have hget : (a :: l).get ⟨i + 1, h⟩ = l.get ⟨i, h'⟩ := rfl
          rw [heq, hget]
          exact (List.Perm.swap a _ _).trans ((ih i h').cons a)

theorem sampleAux_append_perm {α : Type _} :
    ∀ (k : Nat) (pop : List α) (seed : List Nat),
      ∃ rest, List.Perm (sampleAux pop k seed ++ rest) pop := by
  intro k
  induction k with
  | zero => intro pop seed; exact ⟨pop, by simp [sampleAux]⟩
  | succ k ih =>
      intro pop seed
      by_cases hpos : 0 < pop.length
      · obtain ⟨rest, hrest⟩ :=
          ih (pop.eraseIdx (seed.headD 0 % pop.length)) seed.tail
        refine ⟨rest, ?_⟩
        rw [sampleAux, dif_pos hpos]
        simp only [List.cons_append]
        exact (hrest.cons _).trans
          (get_cons_eraseIdx_perm pop _ (Nat.mod_lt _ hpos))
      · refine ⟨pop, ?_⟩
        rw [sampleAux, dif_neg hpos]
        simp

theorem get_random_services_eq_ok (services : Registry) (n : Int)
    (seed : List Nat) (hn : 0 ≤ n) :
    get_random_services services n seed =
      Except.ok (sampleAux services (min n.toNat services.length) seed) := by
  unfold get_random_services randomSample
  by_cases h : (services.length : Int) < n
  · rw [if_pos h, if_neg (by omega :
      ¬((services.length : Int) < 0 ∨
        (services.length : Int) < (services.length : Int)))]
    have harg : ((services.length : Int)).toNat =
        min n.toNat services.length := by omega
    rw [harg]
  · rw [if_neg h, if_neg (by omega : ¬(n < 0 ∨ (services.length : Int) < n))]
    have harg : n.toNat = min n.toNat services.length := by omega
    rw [← harg]

theorem get_random_services_err_of_neg (services : Registry) (n : Int)
    (seed : List Nat) (hn : n < 0) :
    get_random_services services n seed =
      Except.error "Sample larger than population or is negative" := by
  unfold get_random_services randomSample
  rw [if_neg (by omega : ¬((services.length : Int) < n)), if_pos (Or.inl hn)]

/-- Claim C3: for every registry state (distinct keys, as a Python dict
guarantees) and every amount `n ≥ 0`, `get_random_services n` returns a list
of exactly `min n (size)` entries whose keys are pairwise distinct; for an
empty registry this is the empty list, and for `n > size` it is `size`
entries. -/
theorem get_random_services_spec :
    ∀ (services : Registry) (n : Int) (seed : List Nat),
      (services.map Prod.fst).Nodup → 0 ≤ n →
      ∃ l, get_random_services services n seed = Except.ok l ∧
        l.length = min n.toNat services.length ∧
        (l.map Prod.fst).Nodup := by
  intro services n seed hnd hn
  refine ⟨_, get_random_services_eq_ok services n seed hn, ?_, ?_⟩
  · exact sampleAux_length _ _ _ (Nat.min_le_right _ _)
  · obtain ⟨rest, hrest⟩ :=
      sampleAux_append_perm (min n.toNat services.length) services seed
    have hall : ((sampleAux services (min n.toNat services.length) seed
        ++ rest).map Prod.fst).Nodup :=
      ((hrest.map Prod.fst).symm).nodup hnd
    rw [List.map_append] at hall
    exact hall.sublist (List.sublist_append_left _ _)

/-- Witness for C3: a registry of three distinct keys, `n = 5 > 3`: the
selection has exactly `3 = min 5 3` pairwise-distinct entries. -/
theorem get_random_services_spec_witness :
    (reg3.map Prod.fst).Nodup ∧ (0 : Int) ≤ 5 ∧
      ∃ l, get_random_services reg3 5 [1, 0] = Except.ok l ∧
        l.length = min (5 : Int).toNat reg3.length ∧
        (l.map Prod.fst).Nodup :=
  ⟨by decide, by decide,
    get_random_services_spec reg3 5 [1, 0] (by decide) (by decide)⟩

/-- Claim C10: the clamp in `get_random_services` is one-sided — for every
negative amount (also on an empty registry) the call raises
`random.sample`'s `ValueError` instead of returning an empty list, and for
every amount `≥ 0` it succeeds. -/
theorem get_random_services_negative :
    ∀ (services : Registry) (n : Int) (seed : List Nat),
      (n < 0 → get_random_services services n seed =
        Except.error "Sample larger than population or is negative") ∧
      (0 ≤ n → ∃ l, get_random_services services n seed = Except.ok l) := by
  intro services n seed
  constructor
  · intro hn
    exact get_random_services_err_of_neg services n seed hn
  · intro hn
    exact ⟨_, get_random_services_eq_ok services n seed hn⟩

/-- Witness for C10: `amount = -1` against the empty registry raises, while
`amount = 0` against the empty registry succeeds. -/
theorem get_random_services_negative_witness :
    get_random_services [] (-1) [] =
      Except.error "Sample larger than population or is negative" ∧
    ∃ l, get_random_services [] 0 [] = Except.ok l :=
  ⟨(get_random_services_negative [] (-1) []).1 (by decide),
   (get_random_services_negative [] 0 []).2 (by decide)⟩

/-! ## Helper lemmas about the dispatcher -/

theorem submit_length (sched : Nat → Nat) :
    ∀ (i : Nat) (l : Registry), (submit sched i l).length = l.length := by
  intro i l
  induction l generalizing i with
  | nil => rfl
  | cons p rest ih => simp [submit, ih]

theorem submit_countP (sched : Nat → Nat) (q : String → PyFunc → Bool) :
    ∀ (i : Nat) (l : Registry),
      (submit sched i l).countP (fun t => q t.service_name t.func) =
        l.countP (fun p => q p.1 p.2) := by
  intro i l
  induction l generalizing i with
  | nil => rfl
  | cons p rest ih =>
      simp only [submit, List.countP_cons, ih]

theorem submit_time_mem (sched : Nat → Nat) :
    ∀ (i : Nat) (l : Registry) (t : SubmittedTask),
      t ∈ submit sched i l → ∃ j, t.time = sched j := by
  intro i l
  induction l generalizing i with
  | nil => intro t ht; simp [submit] at ht
  | cons p rest ih =>
      intro t ht
      simp only [submit, List.mem_cons] at ht
      rcases ht with h | h
      · exact ⟨i, by rw [h]⟩
      · exact ih (i + 1) t h

theorem submit_mem_of_lt (sched : Nat → Nat) :
    ∀ (l : Registry) (n i : Nat) (h : i < l.length),
      (⟨(l.get ⟨i, h⟩).1, (l.get ⟨i, h⟩).2, sched (n + i)⟩ : SubmittedTask) ∈
        submit sched n l := by
  intro l
  induction l with
  | nil => intro n i h; exact absurd h (by simp)
  | cons p rest ih =>
      intro n i h
      cases i with
      | zero => simp [submit]
      | succ i =>
          have h' : i < rest.length := by simpa using h
          have : n + (i + 1) = (n + 1) + i := by omega
          simp only [submit, List.mem_cons]
          right
          have := ih (n + 1) i h'
          simpa [show n + (i + 1) = (n + 1) + i from by omega] using this

theorem countP_add_countP_not {α : Type _} (p : α → Bool) (l : List α) :
    l.countP p + l.countP (fun a => !p a) = l.length := by
  induction l with
  | nil => rfl
  | cons a l ih =>
      by_cases h : p a <;>
        simp [List.countP_cons, h, ← ih] <;> omega

theorem foldl_collectStep_spec (phone : String) :
    ∀ (ts : List SubmittedTask) (st : CollectState),
      ts.foldl (collectStep phone) st =
        ⟨st.results ++ ts.map (callOf phone),
         st.success_count + ts.countP (fun t => isSuccess (callOf phone t)),
         st.error_count + ts.countP (fun t => !isSuccess (callOf phone t))⟩ := by
  intro ts
  induction ts with
  | nil => intro st; simp
  | cons t ts ih =>
      intro st
      rw [List.foldl_cons, ih]
      by_cases h : (call_service t.service_name t.func phone).status = "success"
      · simp [collectStep, h, callOf, isSuccess, List.countP_cons,
          List.append_assoc]
        omega
      · simp [collectStep, h, callOf, isSuccess, List.countP_cons,
          List.append_assoc]
        omega

theorem runCollect_spec (phone : String) (timeout : Nat)
    (tasks : List SubmittedTask) :
    runCollect phone timeout tasks =
      ⟨(completionOrder (tasks.filter (fun t => t.time ≤ timeout))).map
          (callOf phone),
       (completionOrder (tasks.filter (fun t => t.time ≤ timeout))).countP
          (fun t => isSuccess (callOf phone t)),
       (completionOrder (tasks.filter (fun t => t.time ≤ timeout))).countP
          (fun t => !isSuccess (callOf phone t))⟩ := by
  rw [runCollect, foldl_collectStep_spec]
  simp

theorem completionOrder_perm (tasks : List SubmittedTask) :
    List.Perm (completionOrder tasks) tasks :=
  List.perm_insertionSort _ tasks

theorem send_sms_batch_ok_elim (services : Registry) (phone : String)
    (amount : Int) (seed : List Nat) (sched : Nat → Nat) (timeout : Nat)
    (b : BatchResult)
    (h : send_sms_batch services phone amount seed sched timeout =
      Except.ok b) :
    ∃ sel, get_random_services services amount seed = Except.ok sel ∧
      (submit sched 0 sel).any (fun t => timeout < t.time) = false ∧
      b = { phone := phone
            requested := amount
            total_services := sel.length
            results := (runCollect phone timeout (submit sched 0 sel)).results
            success_count :=
              (runCollect phone timeout (submit sched 0 sel)).success_count
            error_count :=
              (runCollect phone timeout (submit sched 0 sel)).error_count } := by
  cases h0 : get_random_services services amount seed with
  | error e =>
      simp only [send_sms_batch, h0] at h
      cases h
  | ok sel =>
      refine ⟨sel, rfl, ?_⟩
      simp only [send_sms_batch, h0] at h
      by_cases ha :
          (submit sched 0 sel).any (fun t => timeout < t.time) = true
      · rw [if_pos ha] at h
        cases h
      · rw [if_neg ha] at h
        refine ⟨Bool.eq_false_iff.mpr ha, ?_⟩
        cases h
        rfl

/-- Claim C4: every `BatchResult` returned by `send_sms_batch` has
`success_count + error_count = len(results)`, `requested = amount`,
`total_services = min amount (registry size)`, and (since on a return the
deadline did not truncate collection) `total_services = len(results)`. -/
theorem send_sms_batch_invariants :
    ∀ (services : Registry) (phone : String) (amount : Int)
      (seed : List Nat) (sched : Nat → Nat) (timeout : Nat) (b : BatchResult),
      send_sms_batch services phone amount seed sched timeout = Except.ok b →
      b.success_count + b.error_count = b.results.length ∧
      b.requested = amount ∧
      b.total_services = min amount.toNat services.length ∧
      b.total_services = b.results.length := by
  intro services phone amount seed sched timeout b h
  obtain ⟨sel, h0, hno, hb⟩ :=
    send_sms_batch_ok_elim services phone amount seed sched timeout b h
  have hn : 0 ≤ amount := by
    by_contra hneg
    push_neg at hneg
    rw [get_random_services_err_of_neg services amount seed hneg] at h0
    cases h0
  have hlen : sel.length = min amount.toNat services.length := by
    rw [get_random_services_eq_ok services amount seed hn] at h0
    cases h0
    exact sampleAux_length _ _ _ (Nat.min_le_right _ _)
  have hall : ∀ t ∈ submit sched 0 sel, t.time ≤ timeout := by
    intro t ht
    have := List.any_eq_false.mp hno t ht
    simpa using this
  have hfil : (submit sched 0 sel).filter (fun t => t.time ≤ timeout) =
      submit sched 0 sel := by
    apply List.filter_eq_self.mpr
    intro t ht
    simpa using hall t ht
  subst hb
  rw [runCollect_spec]
  refine ⟨?_, rfl, hlen, ?_⟩
  · simp only [List.length_map]
    exact countP_add_countP_not _ _
  · simp only [List.length_map, hfil]
    rw [(completionOrder_perm _).length_eq, submit_length]

/-- Witness for C4: `amount = 5` against a registry of 3 adapters; the
returned batch has `total_services = 3` and the counting invariants. -/
theorem send_sms_batch_invariants_witness :
    ∃ b, send_sms_batch reg3 "0912345678" 5 [0] (fun _ => 0) 10 =
        Except.ok b ∧
      b.success_count + b.error_count = b.results.length ∧
      b.requested = 5 ∧ b.total_services = 3 ∧
      b.total_services = b.results.length := by
  obtain ⟨b, hb⟩ : ∃ b,
      send_sms_batch reg3 "0912345678" 5 [0] (fun _ => 0) 10 =
        Except.ok b := ⟨_, rfl⟩
  obtain ⟨h1, h2, h3, h4⟩ :=
    send_sms_batch_invariants reg3 "0912345678" 5 [0] (fun _ => 0) 10 b hb
  exact ⟨b, hb, h1, h2, by rw [h3]; decide, h4⟩

/-- Counterexample to C1: 10 dispatched adapters, 9 completing at time 0 and
one at time 100, deadline 10 — `send_sms_batch` does not return a
`BatchResult` with 9 results; `as_completed`'s deadline raises `TimeoutError`
at the `for` statement (outside the per-future `try`), so the call raises. -/
theorem send_sms_batch_timeout_counterexample :
    reg10.length = 10 ∧
    send_sms_batch reg10 "0912345678" 10 [0] sched9fast 10 =
      Except.error "concurrent.futures.TimeoutError" :=
  ⟨rfl, rfl⟩

/-- Claim C1 as amended: if the global deadline elapses before all submitted
invocations complete (some submitted future's completion time exceeds the
timeout), `send_sms_batch` does not return a partial `BatchResult` — the
`TimeoutError` raised by `as_completed` propagates out of the call and the
partially collected results are discarded. -/
theorem send_sms_batch_timeout_raises :
    ∀ (services : Registry) (phone : String) (amount : Int) (seed : List Nat)
      (sched : Nat → Nat) (timeout : Nat) (sel : Registry),
      get_random_services services amount seed = Except.ok sel →
      (∃ i, i < sel.length ∧ timeout < sched i) →
      send_sms_batch services phone amount seed sched timeout =
        Except.error "concurrent.futures.TimeoutError" := by
  intro services phone amount seed sched timeout sel h0 hex
  obtain ⟨i, hi, hlt⟩ := hex
  have hmem := submit_mem_of_lt sched sel 0 i hi
  have hany : (submit sched 0 sel).any (fun t => timeout < t.time) = true := by
    apply List.any_eq_true.mpr
    exact ⟨_, hmem, by simpa using hlt⟩
  simp only [send_sms_batch, h0]
  rw [if_pos hany]

/-- Witness for the amended C1, on the 9-fast-1-slow scenario. -/
theorem send_sms_batch_timeout_raises_witness :
    get_random_services reg10 10 [0] = Except.ok (sampleAux reg10 10 [0]) ∧
    (∃ i, i < (sampleAux reg10 10 [0]).length ∧ 10 < sched9fast i) ∧
    send_sms_batch reg10 "0912345678" 10 [0] sched9fast 10 =
      Except.error "concurrent.futures.TimeoutError" :=
  ⟨rfl, ⟨9, by decide, by decide⟩,
    send_sms_batch_timeout_raises reg10 "0912345678" 10 [0] sched9fast 10
      (sampleAux reg10 10 [0]) rfl ⟨9, by decide, by decide⟩⟩

theorem call_service_isSuccess (service_name : String) (f : PyFunc)
    (phone : String) :
    isSuccess (call_service service_name f phone) = !raisesOn f phone := by
  unfold isSuccess call_service raisesOn
  cases callRaw f phone <;> rfl

theorem send_sms_batch_eq_ok_of_no_timeout (services : Registry)
    (phone : String) (amount : Int) (seed : List Nat) (sched : Nat → Nat)
    (timeout : Nat) (sel : Registry)
    (h0 : get_random_services services amount seed = Except.ok sel)
    (hanyf : (submit sched 0 sel).any (fun t => timeout < t.time) = false) :
    send_sms_batch services phone amount seed sched timeout =
      Except.ok
        { phone := phone
          requested := amount
          total_services := sel.length
          results := (runCollect phone timeout (submit sched 0 sel)).results
          success_count :=
            (runCollect phone timeout (submit sched 0 sel)).success_count
          error_count :=
            (runCollect phone timeout (submit sched 0 sel)).error_count } := by
  simp only [send_sms_batch, h0]
  rw [if_neg (by simp [hanyf])]

/-- Claim C2: any exception raised by the service callable is caught inside
`_call_service` and converted to an error-status dict — it never aborts the
batch; hence a batch whose selected adapters all complete in time and of which
exactly one raises returns `error_count = 1` and `success_count = N - 1`
without the batch call itself throwing. -/
theorem exception_isolation :
    (∀ (service_name phone e : String) (f : PyFunc),
        callRaw f phone = Except.error e →
        call_service service_name f phone =
          { service := some service_name
            status := "error"
            result := Option.none
            error := some e }) ∧
    (∀ (services : Registry) (phone : String) (amount : Int)
        (seed : List Nat) (sched : Nat → Nat) (timeout : Nat)
        (sel : Registry),
        get_random_services services amount seed = Except.ok sel →
        (∀ i, sched i ≤ timeout) →
        sel.countP (fun p => raisesOn p.2 phone) = 1 →
        ∃ b, send_sms_batch services phone amount seed sched timeout =
            Except.ok b ∧
          b.error_count = 1 ∧ b.success_count = sel.length - 1) := by
  constructor
  · intro service_name phone e f hraw
    unfold call_service
    rw [hraw]
  · intro services phone amount seed sched timeout sel h0 hall hone
    have hanyf : (submit sched 0 sel).any (fun t => timeout < t.time) =
        false := by
      apply List.any_eq_false.mpr
      intro t ht
      obtain ⟨j, hj⟩ := submit_time_mem sched 0 sel t ht
      simp only [hj, decide_eq_true_eq, Nat.not_lt]
      exact hall j
    have hfil : (submit sched 0 sel).filter (fun t => t.time ≤ timeout) =
        submit sched 0 sel := by
      apply List.filter_eq_self.mpr
      intro t ht
      obtain ⟨j, hj⟩ := submit_time_mem sched 0 sel t ht
      simp only [hj, decide_eq_true_eq]
      exact hall j
    have hpred : (fun t : SubmittedTask => !isSuccess (callOf phone t)) =
        (fun t : SubmittedTask => raisesOn t.func phone) := by
      funext t
      rw [callOf, call_service_isSuccess, Bool.not_not]
    have herr :
        (completionOrder (submit sched 0 sel)).countP
          (fun t => !isSuccess (callOf phone t)) = 1 := by
      rw [hpred, (completionOrder_perm _).countP_eq]
      rw [show (fun t : SubmittedTask => raisesOn t.func phone) =
          (fun t : SubmittedTask =>
            (fun (_ : String) (f : PyFunc) => raisesOn f phone)
              t.service_name t.func) from rfl]
      rw [submit_countP sched (fun _ f => raisesOn f phone) 0 sel]
      exact hone
    have hlen : (completionOrder (submit sched 0 sel)).length = sel.length :=
      (completionOrder_perm _).length_eq.trans (submit_length sched 0 sel)
    have htot := countP_add_countP_not
      (fun t : SubmittedTask => isSuccess (callOf phone t))
      (completionOrder (submit sched 0 sel))
    refine ⟨_,
      send_sms_batch_eq_ok_of_no_timeout services phone amount seed sched
        timeout sel h0 hanyf, ?_, ?_⟩
    · show (runCollect phone timeout (submit sched 0 sel)).error_count = 1
      rw [runCollect_spec, hfil]
      exact herr
    · show (runCollect phone timeout (submit sched 0 sel)).success_count =
        sel.length - 1
      rw [runCollect_spec, hfil]
      dsimp only
      omega

/-- Witness for C2: two adapters, one of which raises; both complete at time
0 before the deadline 10; the batch returns with `error_count = 1` and
`success_count = 1`. -/
theorem exception_isolation_witness :
    call_service "smsvip_1_bad" badFunc "0912345678" =
      { service := some "smsvip_1_bad"
        status := "error"
        result := Option.none
        error := some "boom" } ∧
    ∃ b, send_sms_batch reg2mixed "0912345678" 2 [0] (fun _ => 0) 10 =
        Except.ok b ∧
      b.error_count = 1 ∧
      b.success_count =
        (sampleAux reg2mixed 2 [0]).length - 1 := by
  constructor
  · exact exception_isolation.1 "smsvip_1_bad" "0912345678" "boom" badFunc rfl
  · exact exception_isolation.2 reg2mixed "0912345678" 2 [0] (fun _ => 0) 10
      (sampleAux reg2mixed 2 [0]) rfl (fun _ => Nat.zero_le 10) (by decide)

theorem call_service_service_key (service_name : String) (f : PyFunc)
    (phone : String) :
    (call_service service_name f phone).service = some service_name := by
  unfold call_service
  cases callRaw f phone <;> rfl

/-- Claim C5: `send_sms_single` returns the not-found error dict iff no
registry key contains the fragment as a case-insensitive substring; when keys
match, it invokes exactly the first matching entry in registry insertion
order and returns its invocation result. -/
theorem send_sms_single_spec :
    ∀ (services : Registry) (phone service_name : String),
      (send_sms_single services phone service_name =
          notFoundResult service_name ↔
        ∀ p ∈ services, keyMatches p.1 service_name = false) ∧
      (∀ (p : String × PyFunc) (rest : Registry),
        services.filter (fun q => keyMatches q.1 service_name) = p :: rest →
        send_sms_single services phone service_name =
          call_service p.1 p.2 phone) := by
  intro services phone service_name
  have hcons : ∀ (p : String × PyFunc) (rest : Registry),
      services.filter (fun q => keyMatches q.1 service_name) = p :: rest →
      send_sms_single services phone service_name =
        call_service p.1 p.2 phone := by
    intro p rest hfil
    unfold send_sms_single
    rw [hfil]
  refine ⟨⟨?_, ?_⟩, hcons⟩
  · intro h
    intro p hp
    cases hfil : services.filter (fun q => keyMatches q.1 service_name) with
    | nil =>
        have := List.filter_eq_nil_iff.mp hfil p hp
        simpa using this
    | cons q rest =>
        rw [hcons q rest hfil] at h
        have hserv := congrArg CallResult.service h
        rw [call_service_service_key] at hserv
        cases hserv
  · intro hnone
    have hfil : services.filter (fun q => keyMatches q.1 service_name) =
        [] := by
      apply List.filter_eq_nil_iff.mpr
      intro p hp
      simp [hnone p hp]
    unfold send_sms_single
    rw [hfil]

/-- Witness for C5: fragment `"zzz"` matches no key of `reg3` and yields the
not-found dict; fragment `"BETA"` matches exactly the key `"smsvip_1_beta"`
case-insensitively and yields that adapter's invocation result. -/
theorem send_sms_single_spec_witness :
    send_sms_single reg3 "0912345678" "zzz" = notFoundResult "zzz" ∧
    send_sms_single reg3 "0912345678" "BETA" =
      call_service "smsvip_1_beta" okFunc "0912345678" := by
  constructor
  · exact (send_sms_single_spec reg3 "0912345678" "zzz").1.mpr (by decide)
  · exact (send_sms_single_spec reg3 "0912345678" "BETA").2
      ("smsvip_1_beta", okFunc) [] rfl

/-- Claim C6: during `load_all_services`, a source whose import or
enumeration raises is skipped by the `except ... continue`: it contributes
zero adapter entries and the remaining sources (before and after it) load
exactly as if the failing source were absent.  (Failures surface at
import/enumeration; `inspect.getmembers(module, inspect.isfunction)` returns
only plain Python functions, whose `inspect.signature` does not raise.) -/
theorem load_failing_source_skipped :
    ∀ (pre post : List Source) (service_file e : String),
      load_all_services (pre ++ (service_file, Except.error e) :: post) =
        load_all_services (pre ++ post) := by
  intro pre post service_file e
  unfold load_all_services
  rw [List.foldl_append, List.foldl_append, List.foldl_cons]
  rfl

theorem call_service_exactlyOne (service_name : String) (f : PyFunc)
    (phone : String) :
    exactlyOnePayload (call_service service_name f phone) := by
  unfold exactlyOnePayload call_service
  cases callRaw f phone with
  | ok v => exact Or.inl ⟨rfl, rfl, rfl⟩
  | error e => exact Or.inr ⟨rfl, rfl, rfl⟩

/-- Claim C7: every invocation result placed in a batch's `results` list, and
every result of a single dispatch, carries exactly one of the payload/error
fields: `"success"` comes with a `result` and no `error`, `"error"` with an
`error` and no `result`. -/
theorem invocation_result_exactly_one :
    (∀ (services : Registry) (phone : String) (amount : Int)
        (seed : List Nat) (sched : Nat → Nat) (timeout : Nat)
        (b : BatchResult) (r : CallResult),
        send_sms_batch services phone amount seed sched timeout =
          Except.ok b →
        r ∈ b.results → exactlyOnePayload r) ∧
    (∀ (services : Registry) (phone service_name : String),
        exactlyOnePayload (send_sms_single services phone service_name)) := by
  constructor
  · intro services phone amount seed sched timeout b r hb hr
    obtain ⟨sel, h0, hno, hbeq⟩ :=
      send_sms_batch_ok_elim services phone amount seed sched timeout b hb
    subst hbeq
    rw [runCollect_spec] at hr
    dsimp only at hr
    obtain ⟨t, _, ht⟩ := List.mem_map.mp hr
    rw [← ht]
    exact call_service_exactlyOne t.service_name t.func phone
  · intro services phone service_name
    unfold send_sms_single
    cases services.filter (fun q => keyMatches q.1 service_name) with
    | nil => exact Or.inr ⟨rfl, rfl, rfl⟩
    | cons p rest => exact call_service_exactlyOne p.1 p.2 phone

/-- Witness for C7: a concrete batch result entry and a concrete not-found
single-dispatch result each carry exactly one payload/error field. -/
theorem invocation_result_exactly_one_witness :
    (∃ b r, send_sms_batch reg3 "0912345678" 1 [0] (fun _ => 0) 10 =
        Except.ok b ∧ r ∈ b.results ∧ exactlyOnePayload r) ∧
    exactlyOnePayload (send_sms_single reg3 "0912345678" "zzz") := by
  constructor
  · refine ⟨_, call_service "smsvip_0_alpha" okFunc "0912345678", rfl,
      List.mem_singleton.mpr rfl, ?_⟩
    exact invocation_result_exactly_one.1 reg3 "0912345678" 1 [0]
      (fun _ => 0) 10 _ _ rfl (List.mem_singleton.mpr rfl)
  · exact invocation_result_exactly_one.2 reg3 "0912345678" "zzz"

/-- Claim C8: when the service callable returns without raising, a falsy
return value (None, 0, empty string, False, empty collection) is replaced by
the sentinel payload `"SMS sent"`, and only a truthy return value is reported
verbatim. -/
theorem falsy_payload_sentinel :
    ∀ (service_name phone : String) (f : PyFunc) (v : PyVal),
      callRaw f phone = Except.ok v →
      (v.truthy = false →
        (call_service service_name f phone).result =
          some (PyVal.str "SMS sent")) ∧
      (v.truthy = true →
        (call_service service_name f phone).result = some v) := by
  intro service_name phone f v hraw
  unfold call_service
  rw [hraw]
  constructor
  · intro hf
    simp [hf]
  · intro ht
    simp [ht]

/-- Witness for C8: a service returning `None` (falsy) yields the sentinel
payload `"SMS sent"`. -/
theorem falsy_payload_sentinel_witness :
    callRaw falsyFunc "0912345678" = Except.ok PyVal.none ∧
    PyVal.none.truthy = false ∧
    (call_service "smsvip_4_falsy" falsyFunc "0912345678").result =
      some (PyVal.str "SMS sent") :=
  ⟨rfl, rfl,
    (falsy_payload_sentinel "smsvip_4_falsy" "0912345678" falsyFunc
      PyVal.none rfl).1 rfl⟩

/-- Claim C9: `get_loader` is idempotent — the first call constructs and
loads the singleton (running `load_all_services` once) and stores it in the
global; every later call returns the same instance with the registry
untouched and the global unchanged. -/
theorem get_loader_idempotent :
    ∀ (sources : List Source),
      get_loader Option.none sources =
        (load_all_services sources, some (load_all_services sources)) ∧
      (∀ l : LoaderState, get_loader (some l) sources = (l, some l)) ∧
      get_loader (get_loader Option.none sources).2 sources =
        get_loader Option.none sources := by
  intro sources
  exact ⟨rfl, fun l => rfl, rfl⟩
